import Mathlib

/-!
Verification development for the openencoder job-dispatch / fleet-autoscaling
engine and its API authentication layer.

The authentication layer (`Server` namespace) is a shallow embedding of
`src/api/server/jwt.go`.  The dispatch/autoscaling core (`Core` namespace)
is modelled from the specification, since only its collaborators appear in
the available sources.
-/

namespace Server

/-- Embedding of `types.User` as used by the JWT middleware: the payload and
identity carry the username and the role string. -/
structure User where
  Username : String
  Role : String
deriving DecidableEq

/-- Embedding of the `admin` role constant from jwt.go. -/
def admin : String := "admin"

/-- Embedding of the `operator` role constant from jwt.go. -/
def operator : String := "operator"

/-- Embedding of the `guest` role constant from jwt.go. -/
def guest : String := "guest"

/-- Embedding of `isAdminOrOperator` from jwt.go: the Go code type-asserts
`user.(*types.User)` and tests the Role field against `operator` and `admin`. -/
def isAdminOrOperator (user : User) : Bool :=
  if user.Role ≠ operator ∧ user.Role ≠ admin then false else true

/-- Embedding of `isOperator` from jwt.go. -/
def isOperator (user : User) : Bool :=
  if user.Role ≠ operator then false else true

/-- Embedding of `isAdmin` from jwt.go. -/
def isAdmin (user : User) : Bool :=
  if user.Role ≠ admin then false else true

/-- The `data interface{}` value handed to the Authorizator: either a
`*types.User` (the type assertion succeeds) or any other value. -/
inductive AuthData where
  | user (u : User)
  | other
deriving DecidableEq

/-- Embedding of the `Authorizator` closure from jwt.go: authorize exactly
when the identity is a `*types.User` whose role is `guest`, `operator` or
`admin`. -/
def Authorizator (data : AuthData) : Bool :=
  match data with
  | .user v =>
    if v.Role = "guest" ∨ v.Role = "operator" ∨ v.Role = "admin" then true else false
  | .other => false

/-- Embedding of the stored user record (`db.Users.GetUserByUsername` result)
with the fields the Authenticator reads. -/
structure DBUser where
  Username : String
  Password : String
  Role : String
  ForcePasswordReset : Bool
deriving DecidableEq

/-- Embedding of the bound `login` form values. -/
structure LoginVals where
  username : String
  password : String
deriving DecidableEq

/-- Errors the Authenticator can return. -/
inductive AuthError where
  | ErrMissingLoginValues
  | ErrFailedAuthentication
  | requirePasswordReset
deriving DecidableEq

/-- Embedding of the `Authenticator` closure from jwt.go.  The store lookup
and the bcrypt comparison are external capabilities, passed as functions:
`lookup` models `db.Users.GetUserByUsername` (None = error), `bcryptMatch`
models `bcrypt.CompareHashAndPassword` returning nil (true = match).
`loginVals = none` models a failed `c.ShouldBind`. -/
def Authenticator (lookup : String → Option DBUser)
    (bcryptMatch : String → String → Bool)
    (loginVals : Option LoginVals) : Except AuthError User :=
  match loginVals with
  | none => .error .ErrMissingLoginValues
  | some lv =>
    match lookup lv.username with
    | none => .error .ErrFailedAuthentication
    | some user =>
      if bcryptMatch user.Password lv.password = false then
        .error .ErrFailedAuthentication
      else if user.ForcePasswordReset then
        .error .requirePasswordReset
      else
        .ok { Username := user.Username, Role := user.Role }

/-- C8: for every user value, `isAdminOrOperator` returns true iff `isAdmin`
or `isOperator` does: it is the pointwise disjunction of the two. -/
theorem isAdminOrOperator_eq_isAdmin_or_isOperator (user : User) :
    isAdminOrOperator user = (isAdmin user || isOperator user) := by
  unfold isAdminOrOperator isAdmin isOperator
  by_cases h1 : user.Role = admin <;> by_cases h2 : user.Role = operator <;>
    simp [h1, h2]

/-- C9: the JWT Authorizator accepts exactly the identities that are a User
whose Role is one of the strings "guest", "operator", "admin"; every other
role value and every non-User identity is rejected. -/
theorem Authorizator_accepts_iff (d : AuthData) :
    Authorizator d = true ↔
      ∃ u, d = .user u ∧
        (u.Role = "guest" ∨ u.Role = "operator" ∨ u.Role = "admin") := by
  cases d with
  | user u =>
    by_cases h : u.Role = "guest" ∨ u.Role = "operator" ∨ u.Role = "admin" <;>
      simp [Authorizator, h]
  | other => simp [Authorizator]

/-- C10: the Authenticator never returns a user whose record has
`ForcePasswordReset` set (even when the bcrypt comparison succeeds); a
missing user record and a password mismatch both yield
`ErrFailedAuthentication`. -/
theorem Authenticator_guards (lookup : String → Option DBUser)
    (bcryptMatch : String → String → Bool) (lv : LoginVals) :
    (∀ user, lookup lv.username = some user → user.ForcePasswordReset = true →
      ∀ u, Authenticator lookup bcryptMatch (some lv) ≠ Except.ok u) ∧
    (lookup lv.username = none →
      Authenticator lookup bcryptMatch (some lv) =
        .error .ErrFailedAuthentication) ∧
    (∀ user, lookup lv.username = some user →
      bcryptMatch user.Password lv.password = false →
      Authenticator lookup bcryptMatch (some lv) =
        .error .ErrFailedAuthentication) := by
  refine ⟨?_, ?_, ?_⟩
  · intro user hu hreset u
    simp only [Authenticator, hu]
    split
    · simp
    · simp [hreset]
  · intro hnone
    simp [Authenticator, hnone]
  · intro user hu hmatch
    simp [Authenticator, hu, hmatch]

/-- Witness for C10 at a concrete store: the single account has
`ForcePasswordReset = true` and a matching password, yet login is refused. -/
theorem Authenticator_guards_witness :
    Authenticator (fun _ => some ⟨"u", "h", "admin", true⟩) (fun _ _ => true)
      (some ⟨"u", "p"⟩) ≠ Except.ok ⟨"u", "admin"⟩ :=
  (Authenticator_guards (fun _ => some ⟨"u", "h", "admin", true⟩)
      (fun _ _ => true) ⟨"u", "p"⟩).1 ⟨"u", "h", "admin", true⟩ rfl rfl
    ⟨"u", "admin"⟩

end Server

namespace Core

/-- Modelled from the spec: configuration constants of the dispatch and
autoscaling engine (retry limit, heartbeat staleness threshold, per-worker
throughput assumption and fleet size bounds); the Dispatcher/Autoscaler
source is not among the available files. -/
structure Config where
  maxAttempts : Nat
  staleness : Nat
  jobsPerWorker : Nat
  minSize : Nat
  maxSize : Nat
deriving DecidableEq

/-- Modelled from the spec: the job lifecycle states of §4.3. -/
inductive JobState where
  | queued
  | assigned
  | encoding
  | done
  | failed
  | canceled
deriving DecidableEq

/-- Modelled from the spec: the terminal job states. -/
def JobState.isTerminal : JobState → Bool
  | .done => true
  | .failed => true
  | .canceled => true
  | _ => false

/-- Modelled from the spec: the Job record of §3 (storage references and the
encode profile are opaque, kept as numbers). -/
structure Job where
  id : Nat
  state : JobState
  inputRef : Nat
  outputRef : Nat
  profile : Nat
  submittedAt : Nat
  assignedWorker : Option Nat
  attempts : Nat
  lastError : Option String
deriving DecidableEq

/-- Modelled from the spec: the worker fleet-member states of §3. -/
inductive WorkerStatus where
  | provisioning
  | ready
  | busy
  | unreachable
  | draining
  | terminated
deriving DecidableEq

/-- Modelled from the spec: the Worker record of §3. -/
structure Worker where
  id : Nat
  machineRef : Nat
  status : WorkerStatus
  currentJob : Option Nat
  lastHeartbeat : Nat
deriving DecidableEq

/-- Modelled from the spec: the whole engine state — the Job Store contents,
the worker fleet, fresh-identifier counters and the pending machine
creation/deletion sets of FleetState. -/
structure SystemState where
  jobs : List Job
  workers : List Worker
  nextJobId : Nat
  nextWorkerId : Nat
  nextMachineId : Nat
  pendingCreations : List Nat
  pendingDeletions : List Nat
deriving DecidableEq

/-- Modelled from the spec: the empty initial state. -/
def initState : SystemState where
  jobs := []
  workers := []
  nextJobId := 0
  nextWorkerId := 0
  nextMachineId := 0
  pendingCreations := []
  pendingDeletions := []

/-- FIFO dispatch order of §4.1: by submission time, ties broken by job id. -/
def fifoLe (a b : Job) : Prop :=
  a.submittedAt < b.submittedAt ∨ (a.submittedAt = b.submittedAt ∧ a.id ≤ b.id)

instance : DecidableRel fifoLe := fun a b =>
  inferInstanceAs (Decidable (_ ∨ _))

instance : IsTotal Job fifoLe where
  total a b := by
    unfold fifoLe
    omega

instance : IsTrans Job fifoLe where
  trans a b c hab hbc := by
    unfold fifoLe at *
    omega

/-- Oldest-idle-first order used by scale-down selection (§4.2): by last
heartbeat, ties broken by worker id. -/
def idleLe (a b : Worker) : Prop :=
  a.lastHeartbeat < b.lastHeartbeat ∨
    (a.lastHeartbeat = b.lastHeartbeat ∧ a.id ≤ b.id)

instance : DecidableRel idleLe := fun a b =>
  inferInstanceAs (Decidable (_ ∨ _))

instance : IsTotal Worker idleLe where
  total a b := by
    unfold idleLe
    omega

instance : IsTrans Worker idleLe where
  trans a b c hab hbc := by
    unfold idleLe at *
    omega

/-- Read a job record by id from the store. -/
def getJob (s : SystemState) (jid : Nat) : Option Job :=
  s.jobs.find? (fun j => j.id == jid)

end Core

namespace Core

/-- Modelled from the spec: the outcome a Worker Agent reports for a job. -/
inductive Outcome where
  | success
  | failure
deriving DecidableEq

/-- Modelled from the spec: the queued jobs examined by a Dispatcher tick,
oldest-first (FIFO by submission time, ties broken by job id). -/
def sortedQueued (s : SystemState) : List Job :=
  List.insertionSort fifoLe (s.jobs.filter (fun j => j.state == JobState.queued))

/-- Modelled from the spec: the ready (idle) workers available for
assignment during a Dispatcher tick. -/
def availWorkers (s : SystemState) : List Worker :=
  s.workers.filter (fun w => w.status == WorkerStatus.ready && w.currentJob == none)

/-- Modelled from the spec: the Dispatcher's assignment loop.  Each candidate
job is offered to the next available worker; the Job Store's conditional
update either confirms (`confirm`) the `queued → assigned` transition, in
which case the pair is recorded and the worker consumed, or fails, in which
case the job is skipped this tick and the worker stays available. -/
def assignLoop (confirm : Nat → Bool) : List Job → List Worker → List (Job × Worker)
  | [], _ => []
  | _ :: _, [] => []
  | j :: js, w :: ws =>
    if confirm j.id then (j, w) :: assignLoop confirm js ws
    else assignLoop confirm js (w :: ws)

/-- Modelled from the spec: the assignments one Dispatcher tick records. -/
def dispatchAssignments (confirm : Nat → Bool) (s : SystemState) : List (Job × Worker) :=
  assignLoop confirm (sortedQueued s) (availWorkers s)

/-- Modelled from the spec: the conditional store update one assignment
applies to a job record — `queued → assigned`, recording the worker; a job
no longer `queued` is left untouched. -/
def dispatchJobUpdate (as : List (Job × Worker)) (j : Job) : Job :=
  if j.state = JobState.queued then
    match as.find? (fun p => p.1.id == j.id) with
    | some p =>
      { j with state := JobState.assigned, assignedWorker := some p.2.id }
    | none => j
  else j

/-- Modelled from the spec: the update one assignment applies to a worker
record — marked `busy` with the confirmed job, only while still idle. -/
def dispatchWorkerUpdate (as : List (Job × Worker)) (w : Worker) : Worker :=
  match as.find? (fun p => p.2.id == w.id) with
  | some p =>
    if w.status = WorkerStatus.ready ∧ w.currentJob = none then
      { w with status := WorkerStatus.busy, currentJob := some p.1.id }
    else w
  | none => w

/-- Modelled from the spec: one Dispatcher assignment pass.  Job records are
updated by a conditional store update (`queued → assigned`, recording the
worker); a worker is marked `busy` with the job only after the store
confirmed that job's transition. -/
def dispatchTick (confirm : Nat → Bool) (s : SystemState) : SystemState :=
  { s with
    jobs := s.jobs.map (dispatchJobUpdate (dispatchAssignments confirm s))
    workers := s.workers.map (dispatchWorkerUpdate (dispatchAssignments confirm s)) }

/-- Modelled from the spec: a Worker Agent reports that encoding started
(`assigned → encoding`). -/
def startJobUpdate (jid : Nat) (j : Job) : Job :=
  if j.id = jid ∧ j.state = JobState.assigned then
    { j with state := JobState.encoding }
  else j

/-- Modelled from the spec: apply a start report to the store. -/
def reportStart (jid : Nat) (s : SystemState) : SystemState :=
  { s with jobs := s.jobs.map (startJobUpdate jid) }

/-- Modelled from the spec: a Worker Agent reports completion of a job
(`reportStatus(jobId, outcome)`).  The Dispatcher applies the terminal or
requeue transition (success → `done`; failure → `queued` with `attempts`
incremented while `attempts < maxAttempts`, else `failed`) and frees the
reporting worker (`busy → ready`, `currentJob = none`). -/
def reportJobUpdate (cfg : Config) (jid : Nat) (outcome : Outcome) (j : Job) : Job :=
  if j.id = jid ∧ j.state = JobState.encoding then
    if outcome = Outcome.success then { j with state := JobState.done }
    else if j.attempts < cfg.maxAttempts then
      { j with state := JobState.queued, attempts := j.attempts + 1,
               assignedWorker := none, lastError := some "encode failure" }
    else
      { j with state := JobState.failed, lastError := some "encode failure" }
  else j

/-- Modelled from the spec: freeing the reporting worker (`busy → ready`,
`currentJob = none`). -/
def reportWorkerUpdate (jid : Nat) (w : Worker) : Worker :=
  if w.currentJob = some jid then
    { w with status := WorkerStatus.ready, currentJob := none }
  else w

/-- Modelled from the spec: apply a completion report to the store. -/
def reportStatus (cfg : Config) (jid : Nat) (outcome : Outcome) (s : SystemState) :
    SystemState :=
  { s with
    jobs := s.jobs.map (reportJobUpdate cfg jid outcome)
    workers :=
      if s.jobs.any (fun j => j.id == jid && j.state == JobState.encoding) then
        s.workers.map (reportWorkerUpdate jid)
      else s.workers }

/-- Modelled from the spec: a worker whose heartbeat is stale past the
threshold while `busy`. -/
def staleWorker (cfg : Config) (now : Nat) (w : Worker) : Bool :=
  w.status == WorkerStatus.busy && decide (w.lastHeartbeat + cfg.staleness < now)

/-- Modelled from the spec: the Dispatcher's heartbeat-timeout sweep.  Jobs
in flight on a stale busy worker are treated as failed-by-timeout (`queued`
with `attempts + 1` while under the limit, else `failed`); the worker is
marked `unreachable` and loses its assignment. -/
def timeoutJobUpdate (cfg : Config) (staleJobIds : List Nat) (j : Job) : Job :=
  if j.id ∈ staleJobIds ∧ (j.state = JobState.assigned ∨ j.state = JobState.encoding) then
    if j.attempts < cfg.maxAttempts then
      { j with state := JobState.queued, attempts := j.attempts + 1,
               assignedWorker := none, lastError := some "timeout" }
    else
      { j with state := JobState.failed, lastError := some "timeout" }
  else j

/-- Modelled from the spec: a stale busy worker is marked `unreachable` and
excluded from assignment, losing its current job. -/
def timeoutWorkerUpdate (cfg : Config) (now : Nat) (w : Worker) : Worker :=
  if staleWorker cfg now w then
    { w with status := WorkerStatus.unreachable, currentJob := none }
  else w

/-- Modelled from the spec: the job ids in flight on stale busy workers. -/
def staleJobs (cfg : Config) (now : Nat) (s : SystemState) : List Nat :=
  (s.workers.filter (staleWorker cfg now)).filterMap Worker.currentJob

/-- Modelled from the spec: apply the heartbeat-timeout sweep to the store. -/
def heartbeatTimeout (cfg : Config) (now : Nat) (s : SystemState) : SystemState :=
  { s with
    jobs := s.jobs.map (timeoutJobUpdate cfg (staleJobs cfg now s))
    workers := s.workers.map (timeoutWorkerUpdate cfg now) }

/-- Modelled from the spec: an external cancellation request — sets the job
to `canceled` only if it is currently `queued`. -/
def cancelJobUpdate (jid : Nat) (j : Job) : Job :=
  if j.id = jid ∧ j.state = JobState.queued then
    { j with state := JobState.canceled }
  else j

/-- Modelled from the spec: apply a cancellation request to the store. -/
def cancelJob (jid : Nat) (s : SystemState) : SystemState :=
  { s with jobs := s.jobs.map (cancelJobUpdate jid) }

/-- Modelled from the spec: `submitJob` — a new job enters the store in
state `queued` with a fresh id and zero dispatch attempts. -/
def submitJob (inputRef profile submittedAt : Nat) (s : SystemState) : SystemState :=
  { s with
    jobs := s.jobs ++ [{ id := s.nextJobId, state := JobState.queued,
                         inputRef := inputRef, outputRef := 0, profile := profile,
                         submittedAt := submittedAt, assignedWorker := none,
                         attempts := 0, lastError := none }]
    nextJobId := s.nextJobId + 1 }

end Core

namespace Core

/-- Modelled from the spec: current queued-job count. -/
def queuedCount (s : SystemState) : Nat :=
  s.jobs.countP (fun j => j.state == JobState.queued)

/-- Modelled from the spec: `actualSize` — ready + busy + provisioning
workers, excluding ones already in `pendingDeletions`. -/
def actualSize (s : SystemState) : Nat :=
  s.workers.countP (fun w =>
    (w.status == WorkerStatus.provisioning || w.status == WorkerStatus.ready ||
      w.status == WorkerStatus.busy) &&
    !(s.pendingDeletions.contains w.machineRef))

/-- Ceiling division on naturals. -/
def ceilDiv (a b : Nat) : Nat := (a + b - 1) / b

/-- Clamp a natural number into `[lo, hi]`. -/
def clamp (lo hi x : Nat) : Nat := min hi (max lo x)

/-- Modelled from the spec: the Autoscaler's desired fleet size —
`ceil(queuedJobs / jobsPerWorker)` clamped to `[minSize, maxSize]`. -/
def computeDesired (cfg : Config) (queuedJobs : Nat) : Nat :=
  clamp cfg.minSize cfg.maxSize (ceilDiv queuedJobs cfg.jobsPerWorker)

/-- Modelled from the spec: how many machine creations a tick issues — the
deficit between desired and actual size, counting creations still in
flight. -/
def scaleUpDeficit (cfg : Config) (s : SystemState) : Nat :=
  computeDesired cfg (queuedCount s) - (actualSize s + s.pendingCreations.length)

/-- Modelled from the spec: the machine identifiers for which one Autoscaler
tick issues `createMachine` calls; an identifier already in
`pendingCreations` is suppressed. -/
def scaleUpCalls (cfg : Config) (s : SystemState) : List Nat :=
  ((List.range (scaleUpDeficit cfg s)).map (fun i => s.nextMachineId + i)).filter
    (fun m => !(s.pendingCreations.contains m))

/-- Modelled from the spec: the workers one Autoscaler tick selects for
termination — idle (ready, no current job) workers, oldest-idle-first, for
the surplus over the desired size; a worker whose machine is already in
`pendingDeletions` is suppressed. -/
def scaleDownSelection (cfg : Config) (s : SystemState) : List Worker :=
  ((List.insertionSort idleLe
      (s.workers.filter (fun w =>
        w.status == WorkerStatus.ready && w.currentJob == none))).take
    (actualSize s - computeDesired cfg (queuedCount s))).filter
      (fun w => !(s.pendingDeletions.contains w.machineRef))

/-- Modelled from the spec: one Autoscaler reconciliation tick — issues the
creation and deletion calls, records them in the pending sets, and marks
the workers selected for termination `draining` immediately. -/
def autoscaleWorkerUpdate (delIds : List Nat) (w : Worker) : Worker :=
  if w.id ∈ delIds ∧ w.status = WorkerStatus.ready ∧ w.currentJob = none then
    { w with status := WorkerStatus.draining }
  else w

/-- Modelled from the spec: one Autoscaler reconciliation tick applied to
the state: the pending sets record the issued calls and the selected
workers drain. -/
def autoscaleApply (cfg : Config) (s : SystemState) : SystemState :=
  { s with
    workers := s.workers.map
      (autoscaleWorkerUpdate ((scaleDownSelection cfg s).map Worker.id))
    pendingCreations := s.pendingCreations ++ scaleUpCalls cfg s
    pendingDeletions := s.pendingDeletions ++ (scaleDownSelection cfg s).map Worker.machineRef
    nextMachineId := s.nextMachineId + scaleUpDeficit cfg s }

/-- Modelled from the spec: the Provider Adapter confirms a pending machine
creation is reachable — a fresh `ready` Worker record is created and the
machine leaves `pendingCreations`. -/
def confirmCreate (m now : Nat) (s : SystemState) : SystemState :=
  if m ∈ s.pendingCreations then
    { s with
      workers := s.workers ++ [{ id := s.nextWorkerId, machineRef := m,
                                 status := WorkerStatus.ready, currentJob := none,
                                 lastHeartbeat := now }]
      nextWorkerId := s.nextWorkerId + 1
      pendingCreations := s.pendingCreations.filter (fun x => x != m) }
  else s

/-- Modelled from the spec: the Provider Adapter confirms a machine
termination — the draining worker record is removed and the machine leaves
`pendingDeletions`. -/
def confirmDelete (m : Nat) (s : SystemState) : SystemState :=
  { s with
    workers := s.workers.filter (fun w =>
      !(w.machineRef == m && w.status == WorkerStatus.draining))
    pendingDeletions := s.pendingDeletions.filter (fun x => x != m) }

/-- Modelled from the spec: every operation of the system — job submission
and cancellation, Dispatcher assignment tick, worker start/completion
reports, the heartbeat-timeout sweep, the Autoscaler tick and the provider
confirmations. -/
inductive Op where
  | submit (inputRef profile submittedAt : Nat)
  | dispatch (confirm : Nat → Bool)
  | start (jid : Nat)
  | report (jid : Nat) (outcome : Outcome)
  | timeout (now : Nat)
  | cancel (jid : Nat)
  | autoscale
  | confirmCreate (m now : Nat)
  | confirmDelete (m : Nat)

/-- Modelled from the spec: apply one operation to the system state. -/
def applyOp (cfg : Config) (op : Op) (s : SystemState) : SystemState :=
  match op with
  | .submit i p t => submitJob i p t s
  | .dispatch confirm => dispatchTick confirm s
  | .start jid => reportStart jid s
  | .report jid oc => reportStatus cfg jid oc s
  | .timeout now => heartbeatTimeout cfg now s
  | .cancel jid => cancelJob jid s
  | .autoscale => autoscaleApply cfg s
  | .confirmCreate m now => confirmCreate m now s
  | .confirmDelete m => confirmDelete m s

/-- States reachable from the empty initial state by system operations. -/
inductive Reachable (cfg : Config) : SystemState → Prop where
  | init : Reachable cfg initState
  | step {s : SystemState} (op : Op) : Reachable cfg s → Reachable cfg (applyOp cfg op s)

/-- At most one worker holds any given job: two workers with the same
non-null `currentJob` are the same worker. -/
def AtMostOne (s : SystemState) : Prop :=
  ∀ w1 ∈ s.workers, ∀ w2 ∈ s.workers,
    w1.currentJob ≠ none → w1.currentJob = w2.currentJob → w1.id = w2.id

/-- A worker's `currentJob` only points at jobs in state `assigned` or
`encoding`. -/
def PtrState (s : SystemState) : Prop :=
  ∀ w ∈ s.workers, ∀ j ∈ s.jobs, w.currentJob = some j.id →
    j.state = JobState.assigned ∨ j.state = JobState.encoding

/-- The inductive system invariant: distinct job and worker ids, counters
bound every identifier in use, `currentJob` pointers target only live
non-queued work, and no job is held by two workers. -/
def Inv (s : SystemState) : Prop :=
  (s.jobs.map Job.id).Nodup ∧
  (s.workers.map Worker.id).Nodup ∧
  (∀ j ∈ s.jobs, j.id < s.nextJobId) ∧
  (∀ w ∈ s.workers, w.id < s.nextWorkerId) ∧
  (∀ w ∈ s.workers, ∀ jid, w.currentJob = some jid → jid < s.nextJobId) ∧
  PtrState s ∧ AtMostOne s

end Core

namespace Core

/-- C3: re-running the Autoscaler tick with no provider confirmation in
between issues no duplicate provider call: after one `tick`, no machine
identifier in the pending sets is among the creations or deletions the
immediately following `tick` issues. -/
theorem autoscale_tick_idempotent (cfg : Config) (s : SystemState) :
    (∀ m ∈ (autoscaleApply cfg s).pendingCreations,
      m ∉ scaleUpCalls cfg (autoscaleApply cfg s)) ∧
    (∀ m ∈ (autoscaleApply cfg s).pendingDeletions,
      m ∉ (scaleDownSelection cfg (autoscaleApply cfg s)).map Worker.machineRef) := by
  constructor
  · intro m hm hmem
    have h2 := (List.mem_filter.mp hmem).2
    simp only [Bool.not_eq_true', ← Bool.not_eq_true, List.elem_iff] at h2
    exact h2 hm
  · intro m hm hmem
    obtain ⟨w, hw, hwm⟩ := List.mem_map.mp hmem
    have h2 := (List.mem_filter.mp hw).2
    simp only [Bool.not_eq_true', ← Bool.not_eq_true, List.elem_iff] at h2
    exact h2 (hwm ▸ hm)

/-- Witness for C3: a state with one queued job; the first tick records
machine 0 as pending, the second tick does not re-issue its creation. -/
theorem autoscale_tick_idempotent_witness :
    0 ∈ (autoscaleApply ⟨2, 10, 1, 0, 10⟩ (submitJob 7 1 100 initState)).pendingCreations ∧
    0 ∉ scaleUpCalls ⟨2, 10, 1, 0, 10⟩
        (autoscaleApply ⟨2, 10, 1, 0, 10⟩ (submitJob 7 1 100 initState)) :=
  ⟨by decide,
    (autoscale_tick_idempotent ⟨2, 10, 1, 0, 10⟩ (submitJob 7 1 100 initState)).1 0
      (by decide)⟩

/-- C5: the desired size is the clamped ceiling of the per-worker queue
load and stays within `[minSize, maxSize]`; a completed reconciliation
(every issued creation and deletion confirmed) leaves the fleet size within
`[minSize, maxSize]`; and scale-down never selects a busy worker. -/
theorem autoscale_size_bounds (cfg : Config) (s : SystemState)
    (hmm : cfg.minSize ≤ cfg.maxSize)
    (hpc : s.pendingCreations = []) (hpd : s.pendingDeletions = [])
    (hup : actualSize s ≤ cfg.maxSize) :
    (computeDesired cfg (queuedCount s) =
      clamp cfg.minSize cfg.maxSize (ceilDiv (queuedCount s) cfg.jobsPerWorker)) ∧
    (cfg.minSize ≤ computeDesired cfg (queuedCount s) ∧
      computeDesired cfg (queuedCount s) ≤ cfg.maxSize) ∧
    cfg.minSize ≤
      actualSize s + (scaleUpCalls cfg s).length - (scaleDownSelection cfg s).length ∧
    actualSize s + (scaleUpCalls cfg s).length - (scaleDownSelection cfg s).length ≤
      cfg.maxSize ∧
    (∀ w ∈ scaleDownSelection cfg s, w.status ≠ WorkerStatus.busy) := by
  have hdb : cfg.minSize ≤ computeDesired cfg (queuedCount s) ∧
      computeDesired cfg (queuedCount s) ≤ cfg.maxSize := by
    unfold computeDesired clamp
    omega
  have hcl : (scaleUpCalls cfg s).length = scaleUpDeficit cfg s := by
    unfold scaleUpCalls
    rw [hpc]
    simp
  have hdl : (scaleDownSelection cfg s).length ≤
      actualSize s - computeDesired cfg (queuedCount s) := by
    unfold scaleDownSelection
    calc (_ : List Worker).length ≤ _ := List.length_filter_le _ _
    _ ≤ _ := by simp
  have hdef : scaleUpDeficit cfg s =
      computeDesired cfg (queuedCount s) - (actualSize s + 0) := by
    unfold scaleUpDeficit
    rw [hpc]
    rfl
  have hdz : computeDesired cfg (queuedCount s) ≤ actualSize s →
      (scaleDownSelection cfg s).length ≤
        actualSize s - computeDesired cfg (queuedCount s) := fun _ => hdl
  have hd0 : actualSize s < computeDesired cfg (queuedCount s) →
      (scaleDownSelection cfg s).length = 0 := by
    intro h
    unfold scaleDownSelection
    have : actualSize s - computeDesired cfg (queuedCount s) = 0 := by omega
    rw [this]
    simp
  refine ⟨rfl, hdb, ?_, ?_, ?_⟩
  · by_cases h : actualSize s < computeDesired cfg (queuedCount s)
    · rw [hd0 h]
      omega
    · push_neg at h
      have := hdz h
      omega
  · by_cases h : actualSize s < computeDesired cfg (queuedCount s)
    · rw [hd0 h]
      omega
    · push_neg at h
      omega
  · intro w hw
    have h1 := (List.mem_filter.mp hw).1
    have h2 := List.mem_of_mem_take h1
    have h3 := (List.mem_insertionSort idleLe).mp h2
    have h4 := (List.mem_filter.mp h3).2
    simp only [Bool.and_eq_true, beq_iff_eq] at h4
    intro hb
    rw [hb] at h4
    exact absurd h4.1 (by decide)

/-- Witness for C5 at a concrete configuration and the empty fleet: the
hard floor `minSize = 1` is reached after reconciling from zero workers. -/
theorem autoscale_size_bounds_witness :
    actualSize initState ≤ (4 : Nat) ∧
    (1 : Nat) ≤ actualSize initState +
        (scaleUpCalls ⟨2, 10, 1, 1, 4⟩ initState).length -
        (scaleDownSelection ⟨2, 10, 1, 1, 4⟩ initState).length :=
  ⟨by decide,
    (autoscale_size_bounds ⟨2, 10, 1, 1, 4⟩ initState (by decide) rfl rfl
        (by decide)).2.2.1⟩

end Core

namespace Core

theorem find?_id_map (f : Job → Job) (hf : ∀ x, (f x).id = x.id) (l : List Job)
    (n : Nat) :
    (l.map f).find? (fun j => j.id == n) = (l.find? (fun j => j.id == n)).map f := by
  have hp : ((fun j : Job => j.id == n) ∘ f) = (fun j : Job => j.id == n) := by
    funext j
    simp [Function.comp, hf]
  rw [List.find?_map, hp]

theorem dispatchJobUpdate_id (as : List (Job × Worker)) (j : Job) :
    (dispatchJobUpdate as j).id = j.id := by
  unfold dispatchJobUpdate
  split
  · split <;> rfl
  · rfl

theorem startJobUpdate_id (jid : Nat) (j : Job) :
    (startJobUpdate jid j).id = j.id := by
  unfold startJobUpdate
  split <;> rfl

theorem reportJobUpdate_id (cfg : Config) (jid : Nat) (oc : Outcome) (j : Job) :
    (reportJobUpdate cfg jid oc j).id = j.id := by
  unfold reportJobUpdate
  split
  · split
    · rfl
    · split <;> rfl
  · rfl

theorem timeoutJobUpdate_id (cfg : Config) (ids : List Nat) (j : Job) :
    (timeoutJobUpdate cfg ids j).id = j.id := by
  unfold timeoutJobUpdate
  split
  · split <;> rfl
  · rfl

theorem cancelJobUpdate_id (jid : Nat) (j : Job) :
    (cancelJobUpdate jid j).id = j.id := by
  unfold cancelJobUpdate
  split <;> rfl

theorem dispatchWorkerUpdate_id (as : List (Job × Worker)) (w : Worker) :
    (dispatchWorkerUpdate as w).id = w.id := by
  unfold dispatchWorkerUpdate
  split
  · split <;> rfl
  · rfl

theorem reportWorkerUpdate_id (jid : Nat) (w : Worker) :
    (reportWorkerUpdate jid w).id = w.id := by
  unfold reportWorkerUpdate
  split <;> rfl

theorem timeoutWorkerUpdate_id (cfg : Config) (now : Nat) (w : Worker) :
    (timeoutWorkerUpdate cfg now w).id = w.id := by
  unfold timeoutWorkerUpdate
  split <;> rfl

theorem autoscaleWorkerUpdate_id (ids : List Nat) (w : Worker) :
    (autoscaleWorkerUpdate ids w).id = w.id := by
  unfold autoscaleWorkerUpdate
  split <;> rfl

theorem dispatchJobUpdate_terminal (as : List (Job × Worker)) (j : Job)
    (ht : j.state.isTerminal = true) : dispatchJobUpdate as j = j := by
  unfold dispatchJobUpdate
  rw [if_neg]
  intro h
  rw [h] at ht
  exact absurd ht (by decide)

theorem startJobUpdate_terminal (jid : Nat) (j : Job)
    (ht : j.state.isTerminal = true) : startJobUpdate jid j = j := by
  unfold startJobUpdate
  rw [if_neg]
  rintro ⟨-, h⟩
  rw [h] at ht
  exact absurd ht (by decide)

theorem reportJobUpdate_terminal (cfg : Config) (jid : Nat) (oc : Outcome) (j : Job)
    (ht : j.state.isTerminal = true) : reportJobUpdate cfg jid oc j = j := by
  unfold reportJobUpdate
  rw [if_neg]
  rintro ⟨-, h⟩
  rw [h] at ht
  exact absurd ht (by decide)

theorem timeoutJobUpdate_terminal (cfg : Config) (ids : List Nat) (j : Job)
    (ht : j.state.isTerminal = true) : timeoutJobUpdate cfg ids j = j := by
  unfold timeoutJobUpdate
  rw [if_neg]
  rintro ⟨-, h | h⟩ <;> rw [h] at ht <;> exact absurd ht (by decide)

theorem cancelJobUpdate_terminal (jid : Nat) (j : Job)
    (ht : j.state.isTerminal = true) : cancelJobUpdate jid j = j := by
  unfold cancelJobUpdate
  rw [if_neg]
  rintro ⟨-, h⟩
  rw [h] at ht
  exact absurd ht (by decide)

theorem getJob_jobsMap {s : SystemState} (f : Job → Job)
    (hf : ∀ x, (f x).id = x.id) {jid : Nat} {j : Job}
    (hj : getJob s jid = some j) (hfix : f j = j) :
    (s.jobs.map f).find? (fun x => x.id == jid) = some j := by
  unfold getJob at hj
  rw [find?_id_map f hf, hj, Option.map_some', hfix]

/-- C2: once a job is in a terminal state (`done`, `failed`, `canceled`),
no operation of the system changes its record again. -/
theorem terminal_state_frozen (cfg : Config) (op : Op) (s : SystemState)
    (jid : Nat) (j : Job) (hj : getJob s jid = some j)
    (ht : j.state.isTerminal = true) :
    getJob (applyOp cfg op s) jid = some j := by
  cases op with
  | submit i p t =>
    show getJob (submitJob i p t s) jid = some j
    unfold getJob submitJob at *
    rw [List.find?_append, hj]
    rfl
  | dispatch c =>
    exact getJob_jobsMap _ (dispatchJobUpdate_id _)
      hj (dispatchJobUpdate_terminal _ j ht)
  | start n =>
    exact getJob_jobsMap _ (startJobUpdate_id n)
      hj (startJobUpdate_terminal n j ht)
  | report n oc =>
    exact getJob_jobsMap _ (reportJobUpdate_id cfg n oc)
      hj (reportJobUpdate_terminal cfg n oc j ht)
  | timeout now =>
    exact getJob_jobsMap _ (timeoutJobUpdate_id cfg _)
      hj (timeoutJobUpdate_terminal cfg _ j ht)
  | cancel n =>
    exact getJob_jobsMap _ (cancelJobUpdate_id n)
      hj (cancelJobUpdate_terminal n j ht)
  | autoscale =>
    exact hj
  | confirmCreate m now =>
    show getJob (confirmCreate m now s) jid = some j
    unfold confirmCreate
    split <;> exact hj
  | confirmDelete m =>
    exact hj

/-- Witness for C2: a canceled job is untouched by a subsequent dispatch. -/
theorem terminal_state_frozen_witness :
    getJob (applyOp ⟨2, 10, 1, 0, 10⟩ (Op.dispatch (fun _ => true))
        (cancelJob 0 (submitJob 7 1 100 initState))) 0 =
      some { id := 0, state := JobState.canceled, inputRef := 7, outputRef := 0,
             profile := 1, submittedAt := 100, assignedWorker := none,
             attempts := 0, lastError := none } :=
  terminal_state_frozen ⟨2, 10, 1, 0, 10⟩ (Op.dispatch (fun _ => true))
    (cancelJob 0 (submitJob 7 1 100 initState)) 0
    { id := 0, state := JobState.canceled, inputRef := 7, outputRef := 0,
      profile := 1, submittedAt := 100, assignedWorker := none,
      attempts := 0, lastError := none } (by decide) (by decide)

/-- C6: a cancellation request moves a job to `canceled` exactly when it is
currently `queued`; in every other state the job record is unchanged. -/
theorem cancel_iff_queued (cfg : Config) (jid : Nat) (s : SystemState) (j : Job)
    (hj : getJob s jid = some j) :
    (j.state = JobState.queued →
      getJob (applyOp cfg (Op.cancel jid) s) jid =
        some { j with state := JobState.canceled }) ∧
    (j.state ≠ JobState.queued →
      getJob (applyOp cfg (Op.cancel jid) s) jid = some j) := by
  have hj' : s.jobs.find? (fun x => x.id == jid) = some j := hj
  have hid := List.find?_some hj'
  rw [beq_iff_eq] at hid
  constructor
  · intro hq
    show getJob (cancelJob jid s) jid = _
    unfold cancelJob getJob at *
    rw [find?_id_map _ (cancelJobUpdate_id jid), hj, Option.map_some']
    unfold cancelJobUpdate
    rw [if_pos ⟨hid, hq⟩]
  · intro hq
    show getJob (cancelJob jid s) jid = _
    unfold cancelJob getJob at *
    rw [find?_id_map _ (cancelJobUpdate_id jid), hj, Option.map_some']
    unfold cancelJobUpdate
    rw [if_neg (fun h => hq h.2)]

/-- Witness for C6: canceling a queued job cancels it; canceling it again
(now `canceled`, not `queued`) leaves the record unchanged. -/
theorem cancel_iff_queued_witness :
    getJob (applyOp ⟨2, 10, 1, 0, 10⟩ (Op.cancel 0) (submitJob 7 1 100 initState)) 0 =
      some { id := 0, state := JobState.canceled, inputRef := 7, outputRef := 0,
             profile := 1, submittedAt := 100, assignedWorker := none,
             attempts := 0, lastError := none } :=
  (cancel_iff_queued ⟨2, 10, 1, 0, 10⟩ 0 (submitJob 7 1 100 initState)
    { id := 0, state := JobState.queued, inputRef := 7, outputRef := 0,
      profile := 1, submittedAt := 100, assignedWorker := none,
      attempts := 0, lastError := none } (by decide)).1 rfl

end Core

namespace Core

theorem getJob_map_eq {s : SystemState} (f : Job → Job)
    (hf : ∀ x, (f x).id = x.id) {jid : Nat} {j : Job}
    (hj : getJob s jid = some j) :
    (s.jobs.map f).find? (fun x => x.id == jid) = some (f j) := by
  unfold getJob at hj
  rw [find?_id_map f hf, hj, Option.map_some']

theorem some_eq_transform {s' : SystemState} {jid : Nat} {j' x : Job}
    (hj' : getJob s' jid = some j') (h2 : getJob s' jid = some x) : j' = x := by
  rw [hj'] at h2
  exact Option.some_inj.mp h2

/-- C4: across every operation the `attempts` counter never decreases, a
transition into `queued` increments it by exactly one and only happens
strictly below `maxAttempts` (so the counter never exceeds the limit), and
a failure report arriving at the limit terminates the job as `failed`. -/
theorem attempts_monotone_bounded (cfg : Config) (op : Op) (s : SystemState)
    (jid : Nat) (j j' : Job) (hj : getJob s jid = some j)
    (hj' : getJob (applyOp cfg op s) jid = some j') :
    j.attempts ≤ j'.attempts ∧
    (j'.state = JobState.queued → j.state ≠ JobState.queued →
      j'.attempts = j.attempts + 1 ∧ j.attempts < cfg.maxAttempts) ∧
    (j.attempts ≤ cfg.maxAttempts → j'.attempts ≤ cfg.maxAttempts) ∧
    (∀ oc, op = Op.report jid oc → oc = Outcome.failure →
      j.state = JobState.encoding → cfg.maxAttempts ≤ j.attempts →
      j'.state = JobState.failed) := by
  have hjp : s.jobs.find? (fun x => x.id == jid) = some j := hj
  have hid := List.find?_some hjp
  rw [beq_iff_eq] at hid
  cases op with
  | submit i p t =>
    have h2 : getJob (applyOp cfg (Op.submit i p t) s) jid = some j := by
      show getJob (submitJob i p t s) jid = some j
      unfold getJob submitJob at *
      rw [List.find?_append, hjp]
      rfl
    have hja := some_eq_transform hj' h2
    subst hja
    exact ⟨le_refl _, fun h1 h2 => absurd h1 h2, fun h => h,
      fun oc heq => Op.noConfusion heq⟩
  | dispatch c =>
    have hja : j' = dispatchJobUpdate (dispatchAssignments c s) j :=
      some_eq_transform hj' (getJob_map_eq _ (dispatchJobUpdate_id _) hj)
    subst hja
    unfold dispatchJobUpdate
    split
    · split
      · refine ⟨le_refl _, ?_, fun h => h, fun oc heq => Op.noConfusion heq⟩
        intro h1
        exact absurd h1 (by simp)
      · exact ⟨le_refl _, fun h1 h2 => absurd ‹j.state = JobState.queued› h2,
          fun h => h, fun oc heq => Op.noConfusion heq⟩
    · exact ⟨le_refl _, fun h1 h2 => absurd h1 h2, fun h => h,
        fun oc heq => Op.noConfusion heq⟩
  | start n =>
    have hja : j' = startJobUpdate n j :=
      some_eq_transform hj' (getJob_map_eq _ (startJobUpdate_id n) hj)
    subst hja
    unfold startJobUpdate
    split
    · refine ⟨le_refl _, ?_, fun h => h, fun oc heq => Op.noConfusion heq⟩
      intro h1
      exact absurd h1 (by simp)
    · exact ⟨le_refl _, fun h1 h2 => absurd h1 h2, fun h => h,
        fun oc heq => Op.noConfusion heq⟩
  | report n oc =>
    have hja : j' = reportJobUpdate cfg n oc j :=
      some_eq_transform hj' (getJob_map_eq _ (reportJobUpdate_id cfg n oc) hj)
    subst hja
    unfold reportJobUpdate
    split
    case isTrue hg =>
      split
      case isTrue hoc =>
        refine ⟨le_refl _, ?_, fun h => h, ?_⟩
        · intro h1
          exact absurd h1 (by simp)
        · intro oc' heq
          injection heq with h1 h2
          intro hfail
          rw [← h2, hoc] at hfail
          exact Outcome.noConfusion hfail
      case isFalse hoc =>
        split
        case isTrue hlt =>
          refine ⟨Nat.le_succ _, fun _ _ => ⟨rfl, hlt⟩, fun _ => hlt, ?_⟩
          intro oc' heq _ _ hmax
          exact absurd hlt (Nat.not_lt.mpr hmax)
        case isFalse hge =>
          refine ⟨le_refl _, ?_, fun h => h, fun oc' heq _ _ _ => rfl⟩
          intro h1
          exact absurd h1 (by simp)
    case isFalse hg =>
      refine ⟨le_refl _, fun h1 h2 => absurd h1 h2, fun h => h, ?_⟩
      intro oc' heq hoc henc hmax
      injection heq with h1 h2
      exact absurd ⟨h1 ▸ hid, henc⟩ hg
  | timeout now =>
    have hja : j' = timeoutJobUpdate cfg (staleJobs cfg now s) j :=
      some_eq_transform hj' (getJob_map_eq _ (timeoutJobUpdate_id cfg _) hj)
    subst hja
    unfold timeoutJobUpdate
    split
    · split
      next hlt =>
        refine ⟨Nat.le_succ _, fun _ _ => ⟨rfl, hlt⟩, fun _ => hlt,
          fun oc heq => Op.noConfusion heq⟩
      next hge =>
        refine ⟨le_refl _, ?_, fun h => h, fun oc heq => Op.noConfusion heq⟩
        intro h1
        exact absurd h1 (by simp)
    · exact ⟨le_refl _, fun h1 h2 => absurd h1 h2, fun h => h,
        fun oc heq => Op.noConfusion heq⟩
  | cancel n =>
    have hja : j' = cancelJobUpdate n j :=
      some_eq_transform hj' (getJob_map_eq _ (cancelJobUpdate_id n) hj)
    subst hja
    unfold cancelJobUpdate
    split
    case isTrue hg =>
      refine ⟨le_refl _, ?_, fun h => h, fun oc heq => Op.noConfusion heq⟩
      intro h1
      exact absurd h1 (by simp)
    case isFalse hg =>
      exact ⟨le_refl _, fun h1 h2 => absurd h1 h2, fun h => h,
        fun oc heq => Op.noConfusion heq⟩
  | autoscale =>
    have hja := some_eq_transform hj' hj
    subst hja
    exact ⟨le_refl _, fun h1 h2 => absurd h1 h2, fun h => h,
      fun oc heq => Op.noConfusion heq⟩
  | confirmCreate m now =>
    have h2 : getJob (applyOp cfg (Op.confirmCreate m now) s) jid = some j := by
      show getJob (confirmCreate m now s) jid = some j
      unfold confirmCreate
      split <;> exact hj
    have hja := some_eq_transform hj' h2
    subst hja
    exact ⟨le_refl _, fun h1 h2 => absurd h1 h2, fun h => h,
      fun oc heq => Op.noConfusion heq⟩
  | confirmDelete m =>
    have hja := some_eq_transform hj' hj
    subst hja
    exact ⟨le_refl _, fun h1 h2 => absurd h1 h2, fun h => h,
      fun oc heq => Op.noConfusion heq⟩

end Core

namespace Core

/-- Witness for C4: a failure report for an encoding job that has already
reached `maxAttempts = 0` terminates it as `failed`. -/
theorem attempts_monotone_bounded_witness :
    getJob ⟨[⟨0, JobState.encoding, 7, 0, 1, 100, some 0, 0, none⟩], [], 1, 0, 0, [], []⟩ 0 =
      some ⟨0, JobState.encoding, 7, 0, 1, 100, some 0, 0, none⟩ ∧
    Job.state ⟨0, JobState.failed, 7, 0, 1, 100, some 0, 0, some "encode failure"⟩ =
      JobState.failed :=
  ⟨by decide,
    (attempts_monotone_bounded ⟨0, 10, 1, 0, 10⟩ (Op.report 0 Outcome.failure)
        ⟨[⟨0, JobState.encoding, 7, 0, 1, 100, some 0, 0, none⟩], [], 1, 0, 0, [], []⟩ 0
        ⟨0, JobState.encoding, 7, 0, 1, 100, some 0, 0, none⟩
        ⟨0, JobState.failed, 7, 0, 1, 100, some 0, 0, some "encode failure"⟩
        (by decide) (by decide)).2.2.2 Outcome.failure rfl rfl rfl (Nat.le_refl 0)⟩

end Core

namespace Core

theorem assignLoop_fst_sublist (c : Nat → Bool) (js : List Job) :
    ∀ ws : List Worker, List.Sublist ((assignLoop c js ws).map Prod.fst) js := by
  induction js with
  | nil =>
    intro ws
    simp [assignLoop]
  | cons j js ih =>
    intro ws
    cases ws with
    | nil => simp [assignLoop]
    | cons w ws =>
      unfold assignLoop
      split
      · simpa using (ih ws).cons₂ j
      · exact (ih (w :: ws)).cons j

theorem assignLoop_snd_sublist (c : Nat → Bool) (js : List Job) :
    ∀ ws : List Worker, List.Sublist ((assignLoop c js ws).map Prod.snd) ws := by
  induction js with
  | nil =>
    intro ws
    simp [assignLoop]
  | cons j js ih =>
    intro ws
    cases ws with
    | nil => simp [assignLoop]
    | cons w ws =>
      unfold assignLoop
      split
      · simpa using (ih ws).cons₂ w
      · exact ih (w :: ws)

theorem assignLoop_confirm (c : Nat → Bool) (js : List Job) :
    ∀ (ws : List Worker) (p : Job × Worker), p ∈ assignLoop c js ws →
      c p.1.id = true := by
  induction js with
  | nil =>
    intro ws p h
    simp [assignLoop] at h
  | cons j js ih =>
    intro ws p h
    cases ws with
    | nil => simp [assignLoop] at h
    | cons w ws =>
      unfold assignLoop at h
      split at h
      case isTrue hc =>
        rcases List.mem_cons.mp h with rfl | h'
        · exact hc
        · exact ih ws p h'
      case isFalse hc =>
        exact ih (w :: ws) p h

theorem mem_fst_assignLoop {c : Nat → Bool} {js : List Job} {ws : List Worker}
    {p : Job × Worker} (h : p ∈ assignLoop c js ws) : p.1 ∈ js :=
  (assignLoop_fst_sublist c js ws).mem (List.mem_map_of_mem Prod.fst h)

theorem mem_snd_assignLoop {c : Nat → Bool} {js : List Job} {ws : List Worker}
    {p : Job × Worker} (h : p ∈ assignLoop c js ws) : p.2 ∈ ws :=
  (assignLoop_snd_sublist c js ws).mem (List.mem_map_of_mem Prod.snd h)

theorem mem_sortedQueued {s : SystemState} {j : Job} :
    j ∈ sortedQueued s ↔ j ∈ s.jobs ∧ j.state = JobState.queued := by
  unfold sortedQueued
  rw [List.mem_insertionSort, List.mem_filter]
  simp

theorem mem_availWorkers {s : SystemState} {w : Worker} :
    w ∈ availWorkers s ↔
      w ∈ s.workers ∧ w.status = WorkerStatus.ready ∧ w.currentJob = none := by
  unfold availWorkers
  rw [List.mem_filter]
  simp [and_assoc]

theorem sortedQueued_map_id_nodup {s : SystemState}
    (h : (s.jobs.map Job.id).Nodup) : ((sortedQueued s).map Job.id).Nodup := by
  have hperm := (List.perm_insertionSort fifoLe
    (s.jobs.filter (fun j => j.state == JobState.queued))).map Job.id
  unfold sortedQueued
  rw [hperm.nodup_iff]
  exact h.sublist ((List.filter_sublist s.jobs).map Job.id)

theorem availWorkers_map_id_nodup {s : SystemState}
    (h : (s.workers.map Worker.id).Nodup) :
    ((availWorkers s).map Worker.id).Nodup :=
  h.sublist ((List.filter_sublist s.workers).map Worker.id)

theorem dispatchAssignments_fst_id_nodup {c : Nat → Bool} {s : SystemState}
    (h : (s.jobs.map Job.id).Nodup) :
    ((dispatchAssignments c s).map (fun p => p.1.id)).Nodup := by
  have h1 := sortedQueued_map_id_nodup h
  have h2 := (assignLoop_fst_sublist c (sortedQueued s) (availWorkers s)).map Job.id
  have h3 := h1.sublist h2
  rwa [List.map_map] at h3

theorem dispatchAssignments_snd_id_nodup {c : Nat → Bool} {s : SystemState}
    (h : (s.workers.map Worker.id).Nodup) :
    ((dispatchAssignments c s).map (fun p => p.2.id)).Nodup := by
  have h1 := availWorkers_map_id_nodup h
  have h2 := (assignLoop_snd_sublist c (sortedQueued s) (availWorkers s)).map Worker.id
  have h3 := h1.sublist h2
  rwa [List.map_map] at h3

theorem dispatchAssignments_pairwise (c : Nat → Bool) (s : SystemState) :
    (dispatchAssignments c s).Pairwise (fun p q => fifoLe p.1 q.1) := by
  have h1 : List.Sorted fifoLe (sortedQueued s) :=
    List.sorted_insertionSort fifoLe _
  have h2 := h1.sublist (assignLoop_fst_sublist c (sortedQueued s) (availWorkers s))
  exact (List.pairwise_map).mp h2

end Core

namespace Core

instance (s : SystemState) : Decidable (PtrState s) := by
  unfold PtrState
  infer_instance

instance (s : SystemState) : Decidable (AtMostOne s) := by
  unfold AtMostOne
  infer_instance

theorem dispatchWorkerUpdate_eq (as : List (Job × Worker)) (w : Worker) :
    dispatchWorkerUpdate as w = w ∨
    ∃ p, as.find? (fun q => q.2.id == w.id) = some p ∧
      w.status = WorkerStatus.ready ∧ w.currentJob = none ∧
      dispatchWorkerUpdate as w =
        { w with status := WorkerStatus.busy, currentJob := some p.1.id } := by
  unfold dispatchWorkerUpdate
  cases hfind : as.find? (fun q => q.2.id == w.id) with
  | none => exact Or.inl rfl
  | some p =>
    by_cases hg : w.status = WorkerStatus.ready ∧ w.currentJob = none
    · exact Or.inr ⟨p, rfl, hg.1, hg.2, if_pos hg⟩
    · exact Or.inl (if_neg hg)

theorem find?_id_of_mem_nodup {l : List Job} (hn : (l.map Job.id).Nodup)
    {j : Job} (hj : j ∈ l) : l.find? (fun x => x.id == j.id) = some j := by
  induction l with
  | nil => cases hj
  | cons a t ih =>
    rw [List.map_cons, List.nodup_cons] at hn
    rcases List.mem_cons.mp hj with rfl | h'
    · rw [List.find?_cons_of_pos _ (by simp)]
    · have hne : a.id ≠ j.id := by
        intro he
        exact hn.1 (by rw [he]; exact List.mem_map_of_mem Job.id h')
      rw [List.find?_cons_of_neg _ (by simpa using hne)]
      exact ih hn.2 h'

theorem getJob_of_mem {s : SystemState} (hn : (s.jobs.map Job.id).Nodup)
    {j : Job} (hj : j ∈ s.jobs) : getJob s j.id = some j :=
  find?_id_of_mem_nodup hn hj

/-- C7: within one Dispatcher tick, assignments are recorded in FIFO order
(submission time, ties by job id); no worker appears twice and every
assigned worker was idle with no current job; only store-confirmed
candidates are recorded; and a queued job whose conditional update fails is
left untouched this tick with no partial state — its record is unchanged
and no worker ends the tick holding it. -/
theorem dispatch_tick_fifo (cfg : Config) (c : Nat → Bool) (s : SystemState)
    (hjn : (s.jobs.map Job.id).Nodup)
    (hwn : (s.workers.map Worker.id).Nodup)
    (hptr : PtrState s) :
    (dispatchAssignments c s).Pairwise (fun p q => fifoLe p.1 q.1) ∧
    ((dispatchAssignments c s).map (fun p => p.2.id)).Nodup ∧
    (∀ p ∈ dispatchAssignments c s,
      p.2.status = WorkerStatus.ready ∧ p.2.currentJob = none ∧ c p.1.id = true) ∧
    (∀ j ∈ s.jobs, j.state = JobState.queued → c j.id = false →
      getJob (applyOp cfg (Op.dispatch c) s) j.id = some j ∧
      ∀ w ∈ (applyOp cfg (Op.dispatch c) s).workers, w.currentJob ≠ some j.id) := by
  refine ⟨dispatchAssignments_pairwise c s, dispatchAssignments_snd_id_nodup hwn,
    ?_, ?_⟩
  · intro p hp
    have hw := mem_availWorkers.mp (mem_snd_assignLoop hp)
    exact ⟨hw.2.1, hw.2.2, assignLoop_confirm c _ _ p hp⟩
  · intro j hj hq hcf
    have hgj : getJob s j.id = some j := getJob_of_mem hjn hj
    have hfix : dispatchJobUpdate (dispatchAssignments c s) j = j := by
      unfold dispatchJobUpdate
      rw [if_pos hq]
      cases hfind : (dispatchAssignments c s).find? (fun p => p.1.id == j.id) with
      | none => rfl
      | some p =>
        have hp1 := List.find?_some hfind
        rw [beq_iff_eq] at hp1
        have hct := assignLoop_confirm c _ _ p (List.mem_of_find?_eq_some hfind)
        rw [hp1] at hct
        rw [hct] at hcf
        exact absurd hcf (by decide)
    constructor
    · have h2 := getJob_map_eq (dispatchJobUpdate (dispatchAssignments c s))
        (dispatchJobUpdate_id _) hgj
      rw [hfix] at h2
      exact h2
    · intro w' hw' he
      have hw2 : w' ∈ s.workers.map
          (dispatchWorkerUpdate (dispatchAssignments c s)) := hw'
      obtain ⟨w, hw, rfl⟩ := List.mem_map.mp hw2
      rcases dispatchWorkerUpdate_eq (dispatchAssignments c s) w with
        heq | ⟨p, hfind, hst, hcur, heq⟩
      · rw [heq] at he
        rcases hptr w hw j hj he with h | h <;> rw [hq] at h <;>
          exact JobState.noConfusion h
      · rw [heq] at he
        have hp : p.1.id = j.id := by simpa using he
        have hct := assignLoop_confirm c _ _ p (List.mem_of_find?_eq_some hfind)
        rw [hp] at hct
        rw [hct] at hcf
        exact absurd hcf (by decide)

/-- Witness for C7: with a single queued job, a single idle worker and a
store that rejects every conditional update, the tick leaves the job record
untouched. -/
theorem dispatch_tick_fifo_witness :
    getJob (applyOp ⟨2, 10, 1, 0, 10⟩ (Op.dispatch (fun _ => false))
        ⟨[⟨0, JobState.queued, 7, 0, 1, 100, none, 0, none⟩],
         [⟨0, 0, WorkerStatus.ready, none, 5⟩], 1, 1, 1, [], []⟩)
      (Job.id ⟨0, JobState.queued, 7, 0, 1, 100, none, 0, none⟩) =
      some ⟨0, JobState.queued, 7, 0, 1, 100, none, 0, none⟩ :=
  ((dispatch_tick_fifo ⟨2, 10, 1, 0, 10⟩ (fun _ => false)
      ⟨[⟨0, JobState.queued, 7, 0, 1, 100, none, 0, none⟩],
       [⟨0, 0, WorkerStatus.ready, none, 5⟩], 1, 1, 1, [], []⟩
      (by decide) (by decide) (by decide)).2.2.2
    ⟨0, JobState.queued, 7, 0, 1, 100, none, 0, none⟩ (by decide) rfl rfl).1

end Core

namespace Core

theorem map_job_id_map_eq (f : Job → Job) (hf : ∀ x, (f x).id = x.id)
    (l : List Job) : (l.map f).map Job.id = l.map Job.id := by
  rw [List.map_map]
  exact List.map_congr_left fun x _ => hf x

theorem map_worker_id_map_eq (g : Worker → Worker) (hg : ∀ x, (g x).id = x.id)
    (l : List Worker) : (l.map g).map Worker.id = l.map Worker.id := by
  rw [List.map_map]
  exact List.map_congr_left fun x _ => hg x

theorem atMostOne_list_map (l : List Worker) (g : Worker → Worker)
    (hid : ∀ w, (g w).id = w.id)
    (hcj : ∀ w, (g w).currentJob = w.currentJob ∨ (g w).currentJob = none)
    (h : ∀ w1 ∈ l, ∀ w2 ∈ l, w1.currentJob ≠ none →
      w1.currentJob = w2.currentJob → w1.id = w2.id) :
    ∀ w1 ∈ l.map g, ∀ w2 ∈ l.map g, w1.currentJob ≠ none →
      w1.currentJob = w2.currentJob → w1.id = w2.id := by
  intro w1' h1 w2' h2 hne hcj'
  obtain ⟨w1, hw1, rfl⟩ := List.mem_map.mp h1
  obtain ⟨w2, hw2, rfl⟩ := List.mem_map.mp h2
  rcases hcj w1 with e1 | e1
  · rcases hcj w2 with e2 | e2
    · rw [e1] at hne hcj'
      rw [e2] at hcj'
      rw [hid w1, hid w2]
      exact h w1 hw1 w2 hw2 hne hcj'
    · rw [e1] at hne hcj'
      rw [e2] at hcj'
      exact absurd hcj' hne
  · rw [e1] at hne
    exact absurd rfl hne

theorem worker_eq_of_id {l : List Worker} (hn : (l.map Worker.id).Nodup)
    {w1 w2 : Worker} (h1 : w1 ∈ l) (h2 : w2 ∈ l) (he : w1.id = w2.id) :
    w1 = w2 :=
  List.inj_on_of_nodup_map hn h1 h2 he

theorem job_eq_of_id {l : List Job} (hn : (l.map Job.id).Nodup)
    {j1 j2 : Job} (h1 : j1 ∈ l) (h2 : j2 ∈ l) (he : j1.id = j2.id) :
    j1 = j2 :=
  List.inj_on_of_nodup_map hn h1 h2 he

theorem Inv_submit (i p t : Nat) (s : SystemState) (h : Inv s) :
    Inv (submitJob i p t s) := by
  obtain ⟨h1, h2, h3, h4, h5, h6, h7⟩ := h
  refine ⟨?_, h2, ?_, h4, ?_, ?_, ?_⟩
  · show ((s.jobs ++ [_]).map Job.id).Nodup
    rw [List.map_append, List.nodup_append]
    refine ⟨h1, List.nodup_singleton _, ?_⟩
    intro a ha hb
    simp only [List.map_cons, List.map_nil, List.mem_singleton] at hb
    obtain ⟨j, hj, rfl⟩ := List.mem_map.mp ha
    have := h3 j hj
    omega
  · intro j hj
    rcases List.mem_append.mp hj with hl | hr
    · have := h3 j hl
      show j.id < s.nextJobId + 1
      omega
    · rw [List.mem_singleton.mp hr]
      show s.nextJobId < s.nextJobId + 1
      omega
  · intro w hw jid hjid
    have := h5 w hw jid hjid
    show jid < s.nextJobId + 1
    omega
  · intro w hw j hj he
    rcases List.mem_append.mp hj with hl | hr
    · exact h6 w hw j hl he
    · rw [List.mem_singleton.mp hr] at he
      have := h5 w hw _ he
      simp at this
  · exact h7

theorem Inv_start (n : Nat) (s : SystemState) (h : Inv s) :
    Inv (reportStart n s) := by
  obtain ⟨h1, h2, h3, h4, h5, h6, h7⟩ := h
  refine ⟨?_, h2, ?_, h4, h5, ?_, h7⟩
  · show ((s.jobs.map (startJobUpdate n)).map Job.id).Nodup
    rw [map_job_id_map_eq _ (startJobUpdate_id n)]
    exact h1
  · intro j hj
    obtain ⟨j0, hj0, rfl⟩ := List.mem_map.mp hj
    rw [startJobUpdate_id]
    exact h3 j0 hj0
  · intro w hw j hj he
    obtain ⟨j0, hj0, rfl⟩ := List.mem_map.mp hj
    rw [startJobUpdate_id] at he
    have hst := h6 w hw j0 hj0 he
    unfold startJobUpdate
    split
    · right
      rfl
    · exact hst

theorem Inv_cancel (n : Nat) (s : SystemState) (h : Inv s) :
    Inv (cancelJob n s) := by
  obtain ⟨h1, h2, h3, h4, h5, h6, h7⟩ := h
  refine ⟨?_, h2, ?_, h4, h5, ?_, h7⟩
  · show ((s.jobs.map (cancelJobUpdate n)).map Job.id).Nodup
    rw [map_job_id_map_eq _ (cancelJobUpdate_id n)]
    exact h1
  · intro j hj
    obtain ⟨j0, hj0, rfl⟩ := List.mem_map.mp hj
    rw [cancelJobUpdate_id]
    exact h3 j0 hj0
  · intro w hw j hj he
    obtain ⟨j0, hj0, rfl⟩ := List.mem_map.mp hj
    rw [cancelJobUpdate_id] at he
    have hst := h6 w hw j0 hj0 he
    unfold cancelJobUpdate
    split
    case isTrue hg =>
      rcases hst with h' | h' <;> rw [h'] at hg <;>
        exact absurd hg.2 (by decide)
    case isFalse hg =>
      exact hst

theorem Inv_autoscale (cfg : Config) (s : SystemState) (h : Inv s) :
    Inv (autoscaleApply cfg s) := by
  obtain ⟨h1, h2, h3, h4, h5, h6, h7⟩ := h
  have hgid := autoscaleWorkerUpdate_id ((scaleDownSelection cfg s).map Worker.id)
  have hgcj : ∀ w, (autoscaleWorkerUpdate ((scaleDownSelection cfg s).map Worker.id) w).currentJob
      = w.currentJob := by
    intro w
    unfold autoscaleWorkerUpdate
    split <;> rfl
  refine ⟨h1, ?_, h3, ?_, ?_, ?_, ?_⟩
  · show ((s.workers.map _).map Worker.id).Nodup
    rw [map_worker_id_map_eq _ hgid]
    exact h2
  · intro w hw
    obtain ⟨w0, hw0, rfl⟩ := List.mem_map.mp hw
    rw [hgid]
    exact h4 w0 hw0
  · intro w hw jid hjid
    obtain ⟨w0, hw0, rfl⟩ := List.mem_map.mp hw
    rw [hgcj] at hjid
    exact h5 w0 hw0 jid hjid
  · intro w hw j hj he
    obtain ⟨w0, hw0, rfl⟩ := List.mem_map.mp hw
    rw [hgcj] at he
    exact h6 w0 hw0 j hj he
  · exact atMostOne_list_map s.workers _ hgid (fun w => Or.inl (hgcj w)) h7

theorem Inv_confirmCreate (m now : Nat) (s : SystemState) (h : Inv s) :
    Inv (confirmCreate m now s) := by
  unfold confirmCreate
  split
  case isFalse => exact h
  case isTrue hm =>
    obtain ⟨h1, h2, h3, h4, h5, h6, h7⟩ := h
    refine ⟨h1, ?_, h3, ?_, ?_, ?_, ?_⟩
    · show ((s.workers ++ [_]).map Worker.id).Nodup
      rw [List.map_append, List.nodup_append]
      refine ⟨h2, List.nodup_singleton _, ?_⟩
      intro a ha hb
      simp only [List.map_cons, List.map_nil, List.mem_singleton] at hb
      obtain ⟨w, hw, rfl⟩ := List.mem_map.mp ha
      have := h4 w hw
      omega
    · intro w hw
      rcases List.mem_append.mp hw with hl | hr
      · have := h4 w hl
        show w.id < s.nextWorkerId + 1
        omega
      · rw [List.mem_singleton.mp hr]
        show s.nextWorkerId < s.nextWorkerId + 1
        omega
    · intro w hw jid hjid
      rcases List.mem_append.mp hw with hl | hr
      · exact h5 w hl jid hjid
      · rw [List.mem_singleton.mp hr] at hjid
        exact absurd hjid (by simp)
    · intro w hw j hj he
      rcases List.mem_append.mp hw with hl | hr
      · exact h6 w hl j hj he
      · rw [List.mem_singleton.mp hr] at he
        exact absurd he (by simp)
    · intro w1 hw1 w2 hw2 hne hcj
      rcases List.mem_append.mp hw1 with hl1 | hr1
      · rcases List.mem_append.mp hw2 with hl2 | hr2
        · exact h7 w1 hl1 w2 hl2 hne hcj
        · rw [List.mem_singleton.mp hr2] at hcj
          exact absurd hcj hne
      · rw [List.mem_singleton.mp hr1] at hne
        exact absurd rfl hne

theorem Inv_confirmDelete (m : Nat) (s : SystemState) (h : Inv s) :
    Inv (confirmDelete m s) := by
  obtain ⟨h1, h2, h3, h4, h5, h6, h7⟩ := h
  have hsub : List.Sublist (s.workers.filter (fun w =>
      !(w.machineRef == m && w.status == WorkerStatus.draining))) s.workers :=
    List.filter_sublist s.workers
  refine ⟨h1, ?_, h3, ?_, ?_, ?_, ?_⟩
  · exact h2.sublist (hsub.map Worker.id)
  · intro w hw
    exact h4 w (hsub.mem hw)
  · intro w hw jid hjid
    exact h5 w (hsub.mem hw) jid hjid
  · intro w hw j hj he
    exact h6 w (hsub.mem hw) j hj he
  · intro w1 hw1 w2 hw2 hne hcj
    exact h7 w1 (hsub.mem hw1) w2 (hsub.mem hw2) hne hcj

end Core

namespace Core

theorem reportWorkerUpdate_cj (n : Nat) (w : Worker) :
    (reportWorkerUpdate n w).currentJob = w.currentJob ∨
    (reportWorkerUpdate n w).currentJob = none := by
  unfold reportWorkerUpdate
  split
  · right
    rfl
  · left
    rfl

theorem timeoutWorkerUpdate_cj (cfg : Config) (now : Nat) (w : Worker) :
    (timeoutWorkerUpdate cfg now w).currentJob = w.currentJob ∨
    (timeoutWorkerUpdate cfg now w).currentJob = none := by
  unfold timeoutWorkerUpdate
  split
  · right
    rfl
  · left
    rfl

theorem Inv_report (cfg : Config) (n : Nat) (oc : Outcome) (s : SystemState)
    (h : Inv s) : Inv (reportStatus cfg n oc s) := by
  obtain ⟨h1, h2, h3, h4, h5, h6, h7⟩ := h
  unfold reportStatus
  split
  case isTrue happ =>
    refine ⟨?_, ?_, ?_, ?_, ?_, ?_, ?_⟩
    · show ((s.jobs.map _).map Job.id).Nodup
      rw [map_job_id_map_eq _ (reportJobUpdate_id cfg n oc)]
      exact h1
    · show ((s.workers.map _).map Worker.id).Nodup
      rw [map_worker_id_map_eq _ (reportWorkerUpdate_id n)]
      exact h2
    · intro j hj
      obtain ⟨j0, hj0, rfl⟩ := List.mem_map.mp hj
      rw [reportJobUpdate_id]
      exact h3 j0 hj0
    · intro w hw
      obtain ⟨w0, hw0, rfl⟩ := List.mem_map.mp hw
      rw [reportWorkerUpdate_id]
      exact h4 w0 hw0
    · intro w hw jid hjid
      obtain ⟨w0, hw0, rfl⟩ := List.mem_map.mp hw
      rcases reportWorkerUpdate_cj n w0 with e | e
      · rw [e] at hjid
        exact h5 w0 hw0 jid hjid
      · rw [e] at hjid
        exact absurd hjid (by simp)
    · intro w hw j hj he
      obtain ⟨w0, hw0, rfl⟩ := List.mem_map.mp hw
      obtain ⟨j0, hj0, rfl⟩ := List.mem_map.mp hj
      rw [reportJobUpdate_id] at he
      by_cases hcw : w0.currentJob = some n
      · have : (reportWorkerUpdate n w0).currentJob = none := by
          unfold reportWorkerUpdate
          rw [if_pos hcw]
        rw [this] at he
        exact absurd he (by simp)
      · have hwfix : reportWorkerUpdate n w0 = w0 := by
          unfold reportWorkerUpdate
          rw [if_neg hcw]
        rw [hwfix] at he
        have hst := h6 w0 hw0 j0 hj0 he
        unfold reportJobUpdate
        rw [if_neg]
        · exact hst
        · rintro ⟨hgid, -⟩
          rw [hgid] at he
          exact hcw he
    · exact atMostOne_list_map s.workers _ (reportWorkerUpdate_id n)
        (reportWorkerUpdate_cj n) h7
  case isFalse happ =>
    rw [Bool.not_eq_true, List.any_eq_false] at happ
    refine ⟨?_, h2, ?_, h4, h5, ?_, h7⟩
    · show ((s.jobs.map _).map Job.id).Nodup
      rw [map_job_id_map_eq _ (reportJobUpdate_id cfg n oc)]
      exact h1
    · intro j hj
      obtain ⟨j0, hj0, rfl⟩ := List.mem_map.mp hj
      rw [reportJobUpdate_id]
      exact h3 j0 hj0
    · intro w hw j hj he
      obtain ⟨j0, hj0, rfl⟩ := List.mem_map.mp hj
      rw [reportJobUpdate_id] at he
      have hst := h6 w hw j0 hj0 he
      unfold reportJobUpdate
      rw [if_neg]
      · exact hst
      · rintro ⟨hgid, hgenc⟩
        have := happ j0 hj0
        simp [hgid, hgenc] at this

theorem Inv_timeout (cfg : Config) (now : Nat) (s : SystemState) (h : Inv s) :
    Inv (heartbeatTimeout cfg now s) := by
  obtain ⟨h1, h2, h3, h4, h5, h6, h7⟩ := h
  refine ⟨?_, ?_, ?_, ?_, ?_, ?_, ?_⟩
  · show ((s.jobs.map _).map Job.id).Nodup
    rw [map_job_id_map_eq _ (timeoutJobUpdate_id cfg _)]
    exact h1
  · show ((s.workers.map _).map Worker.id).Nodup
    rw [map_worker_id_map_eq _ (timeoutWorkerUpdate_id cfg now)]
    exact h2
  · intro j hj
    obtain ⟨j0, hj0, rfl⟩ := List.mem_map.mp hj
    rw [timeoutJobUpdate_id]
    exact h3 j0 hj0
  · intro w hw
    obtain ⟨w0, hw0, rfl⟩ := List.mem_map.mp hw
    rw [timeoutWorkerUpdate_id]
    exact h4 w0 hw0
  · intro w hw jid hjid
    obtain ⟨w0, hw0, rfl⟩ := List.mem_map.mp hw
    rcases timeoutWorkerUpdate_cj cfg now w0 with e | e
    · rw [e] at hjid
      exact h5 w0 hw0 jid hjid
    · rw [e] at hjid
      exact absurd hjid (by simp)
  · intro w hw j hj he
    obtain ⟨w0, hw0, rfl⟩ := List.mem_map.mp hw
    obtain ⟨j0, hj0, rfl⟩ := List.mem_map.mp hj
    rw [timeoutJobUpdate_id] at he
    by_cases hstale : staleWorker cfg now w0 = true
    · have : (timeoutWorkerUpdate cfg now w0).currentJob = none := by
        unfold timeoutWorkerUpdate
        rw [if_pos hstale]
      rw [this] at he
      exact absurd he (by simp)
    · have hwfix : timeoutWorkerUpdate cfg now w0 = w0 := by
        unfold timeoutWorkerUpdate
        rw [if_neg hstale]
      rw [hwfix] at he
      have hst := h6 w0 hw0 j0 hj0 he
      have hnotin : j0.id ∉ staleJobs cfg now s := by
        intro hmem
        obtain ⟨w2, hw2, hcw2⟩ := List.mem_filterMap.mp hmem
        have hw2' := List.mem_filter.mp hw2
        have hid := h7 w0 hw0 w2 hw2'.1 (by rw [he]; simp)
          (he.trans hcw2.symm)
        have := worker_eq_of_id h2 hw0 hw2'.1 hid
        rw [this] at hstale
        exact hstale hw2'.2
      unfold timeoutJobUpdate
      rw [if_neg]
      · exact hst
      · rintro ⟨hmem, -⟩
        exact hnotin hmem
  · exact atMostOne_list_map s.workers _ (timeoutWorkerUpdate_id cfg now)
      (timeoutWorkerUpdate_cj cfg now) h7

end Core

namespace Core

theorem mem_dispatchAssignments_job {c : Nat → Bool} {s : SystemState}
    {p : Job × Worker} (hp : p ∈ dispatchAssignments c s) :
    p.1 ∈ s.jobs ∧ p.1.state = JobState.queued :=
  mem_sortedQueued.mp (mem_fst_assignLoop hp)

theorem dispatchJobUpdate_assigned {c : Nat → Bool} {s : SystemState}
    {p : Job × Worker} (hp : p ∈ dispatchAssignments c s) :
    (dispatchJobUpdate (dispatchAssignments c s) p.1).state = JobState.assigned := by
  have hq := (mem_dispatchAssignments_job hp).2
  have hex : ∃ q, q ∈ dispatchAssignments c s ∧ (q.1.id == p.1.id) = true :=
    ⟨p, hp, by simp⟩
  obtain ⟨p', hfind'⟩ :=
    Option.isSome_iff_exists.mp (List.find?_isSome.mpr hex)
  unfold dispatchJobUpdate
  rw [if_pos hq, hfind']

theorem Inv_dispatch (c : Nat → Bool) (s : SystemState) (h : Inv s) :
    Inv (dispatchTick c s) := by
  obtain ⟨h1, h2, h3, h4, h5, h6, h7⟩ := h
  have hfn := dispatchAssignments_fst_id_nodup (c := c) h1
  refine ⟨?_, ?_, ?_, ?_, ?_, ?_, ?_⟩
  · show ((s.jobs.map _).map Job.id).Nodup
    rw [map_job_id_map_eq _ (dispatchJobUpdate_id _)]
    exact h1
  · show ((s.workers.map _).map Worker.id).Nodup
    rw [map_worker_id_map_eq _ (dispatchWorkerUpdate_id _)]
    exact h2
  · intro j hj
    obtain ⟨j0, hj0, rfl⟩ := List.mem_map.mp hj
    rw [dispatchJobUpdate_id]
    exact h3 j0 hj0
  · intro w hw
    obtain ⟨w0, hw0, rfl⟩ := List.mem_map.mp hw
    rw [dispatchWorkerUpdate_id]
    exact h4 w0 hw0
  · intro w hw jid hjid
    obtain ⟨w0, hw0, rfl⟩ := List.mem_map.mp hw
    rcases dispatchWorkerUpdate_eq (dispatchAssignments c s) w0 with
      heq | ⟨p, hfind, hst0, hcur0, heq⟩
    · rw [heq] at hjid
      exact h5 w0 hw0 jid hjid
    · rw [heq] at hjid
      have hp : p.1.id = jid := by simpa using hjid
      have hpm := List.mem_of_find?_eq_some hfind
      have := h3 p.1 (mem_dispatchAssignments_job hpm).1
      show jid < s.nextJobId
      omega
  · intro w hw j hj he
    obtain ⟨w0, hw0, rfl⟩ := List.mem_map.mp hw
    obtain ⟨j0, hj0, rfl⟩ := List.mem_map.mp hj
    rw [dispatchJobUpdate_id] at he
    rcases dispatchWorkerUpdate_eq (dispatchAssignments c s) w0 with
      heq | ⟨p, hfind, hst0, hcur0, heq⟩
    · rw [heq] at he
      have hst := h6 w0 hw0 j0 hj0 he
      have hfix : dispatchJobUpdate (dispatchAssignments c s) j0 = j0 := by
        unfold dispatchJobUpdate
        rw [if_neg]
        intro hq
        rcases hst with h' | h' <;> rw [h'] at hq <;>
          exact JobState.noConfusion hq
      rw [hfix]
      exact hst
    · rw [heq] at he
      have hp : p.1.id = j0.id := by simpa using he
      have hpm := List.mem_of_find?_eq_some hfind
      have hj0p : j0 = p.1 :=
        job_eq_of_id h1 hj0 (mem_dispatchAssignments_job hpm).1 hp.symm
      rw [hj0p]
      exact Or.inl (dispatchJobUpdate_assigned hpm)
  · intro w1' hw1' w2' hw2' hne hcj
    obtain ⟨w1, hw1, rfl⟩ := List.mem_map.mp hw1'
    obtain ⟨w2, hw2, rfl⟩ := List.mem_map.mp hw2'
    rcases dispatchWorkerUpdate_eq (dispatchAssignments c s) w1 with
      heq1 | ⟨p1, hfind1, hst1, hcur1, heq1⟩ <;>
      rcases dispatchWorkerUpdate_eq (dispatchAssignments c s) w2 with
        heq2 | ⟨p2, hfind2, hst2, hcur2, heq2⟩
    · rw [heq1] at hne hcj
      rw [heq2] at hcj
      rw [heq1, heq2]
      exact h7 w1 hw1 w2 hw2 hne hcj
    · rw [heq1] at hne hcj
      rw [heq2] at hcj
      have hp : w1.currentJob = some p2.1.id := by simpa using hcj
      have hpm := List.mem_of_find?_eq_some hfind2
      have hjq := mem_dispatchAssignments_job hpm
      rcases h6 w1 hw1 p2.1 hjq.1 hp with h' | h' <;> rw [hjq.2] at h' <;>
        exact JobState.noConfusion h'
    · rw [heq2] at hcj
      rw [heq1] at hne hcj
      have hp : w2.currentJob = some p1.1.id := by
        have := hcj.symm
        simpa using this
      have hpm := List.mem_of_find?_eq_some hfind1
      have hjq := mem_dispatchAssignments_job hpm
      rcases h6 w2 hw2 p1.1 hjq.1 hp with h' | h' <;> rw [hjq.2] at h' <;>
        exact JobState.noConfusion h'
    · rw [heq1] at hne hcj
      rw [heq2] at hcj
      have hp : p1.1.id = p2.1.id := by simpa using hcj
      have hpm1 := List.mem_of_find?_eq_some hfind1
      have hpm2 := List.mem_of_find?_eq_some hfind2
      have hpp : p1 = p2 := List.inj_on_of_nodup_map hfn hpm1 hpm2 hp
      have hid1 : p1.2.id = w1.id := by
        have := List.find?_some hfind1
        rwa [beq_iff_eq] at this
      have hid2 : p2.2.id = w2.id := by
        have := List.find?_some hfind2
        rwa [beq_iff_eq] at this
      rw [heq1, heq2]
      show w1.id = w2.id
      rw [← hid1, ← hid2, hpp]

end Core

namespace Core

theorem Inv_init : Inv initState := by
  refine ⟨?_, ?_, ?_, ?_, ?_, ?_, ?_⟩ <;>
    simp [initState, PtrState, AtMostOne]

theorem Inv_applyOp (cfg : Config) (op : Op) (s : SystemState) (h : Inv s) :
    Inv (applyOp cfg op s) := by
  cases op with
  | submit i p t => exact Inv_submit i p t s h
  | dispatch c => exact Inv_dispatch c s h
  | start n => exact Inv_start n s h
  | report n oc => exact Inv_report cfg n oc s h
  | timeout now => exact Inv_timeout cfg now s h
  | cancel n => exact Inv_cancel n s h
  | autoscale => exact Inv_autoscale cfg s h
  | confirmCreate m now => exact Inv_confirmCreate m now s h
  | confirmDelete m => exact Inv_confirmDelete m s h

theorem Inv_reachable (cfg : Config) (s : SystemState) (h : Reachable cfg s) :
    Inv s := by
  induction h with
  | init => exact Inv_init
  | step op _ ih => exact Inv_applyOp cfg op _ ih

/-- C1: in every reachable state, at most one worker holds any given job as
its `currentJob` — the Dispatcher's store-conditional assignment (which
succeeds only while the job is still `queued`) never produces two
simultaneous assignments of one job. -/
theorem at_most_one_assignment (cfg : Config) (s : SystemState)
    (h : Reachable cfg s) : AtMostOne s :=
  (Inv_reachable cfg s h).2.2.2.2.2.2

/-- Witness for C1: the state after submitting a job, scaling up, bringing
the machine online and dispatching with a confirming store. -/
theorem at_most_one_assignment_witness :
    AtMostOne (applyOp ⟨2, 10, 1, 0, 10⟩ (Op.dispatch (fun _ => true))
      (applyOp ⟨2, 10, 1, 0, 10⟩ (Op.confirmCreate 0 5)
        (applyOp ⟨2, 10, 1, 0, 10⟩ Op.autoscale
          (applyOp ⟨2, 10, 1, 0, 10⟩ (Op.submit 7 1 100) initState)))) :=
  at_most_one_assignment ⟨2, 10, 1, 0, 10⟩ _
    (Reachable.step _ (Reachable.step _ (Reachable.step _
      (Reachable.step _ Reachable.init))))

end Core
